import Mathlib

/-
Verification development for the planning/repair loop and session-state
reconciliation subsystem of the LLM-agentic-shopping repository.

The TypeScript sources are shallowly embedded: JSON values are modelled by an
inductive type with exact rational numbers standing in for JS numbers (every
value the subsystem actually compares or stores is an integer index, a string,
a boolean, an array or an object, so the float/rational distinction is never
observable here), JSON.parse is modelled by a strict fuel-based recursive
descent parser, and JS truthiness and strict equality are modelled explicitly.
-/

namespace Shop

/-- Json models a parsed JavaScript JSON value. Numbers are modelled as exact
rationals; objects are ordered field lists where a later duplicate key shadows
an earlier one, matching JS object semantics after JSON.parse. -/
inductive Json where
  | null : Json
  | bool (b : Bool) : Json
  | num (q : Rat) : Json
  | str (s : String) : Json
  | arr (xs : List Json) : Json
  | obj (fields : List (String × Json)) : Json

/-- lookupLast returns the value of the last field with the given key,
matching JS semantics where a later duplicate key in a JSON text wins. -/
def lookupLast (fields : List (String × Json)) (key : String) : Option Json :=
  match fields with
  | [] => none
  | (k, v) :: rest =>
    match lookupLast rest key with
    | some r => some r
    | none => if k == key then some v else none

/-- jsGet models JS property access obj[key] on a parsed JSON value: only
plain objects have (string-keyed, non-index) properties; everything else
yields undefined, modelled as none. -/
def jsGet : Json → String → Option Json
  | .obj fields, key => lookupLast fields key
  | _, _ => none

/-- jsTruthy models JS truthiness of a JSON value. -/
def jsTruthy : Json → Bool
  | .null => false
  | .bool b => b
  | .num q => q != 0
  | .str s => s != ""
  | .arr _ => true
  | .obj _ => true

/-- jsTruthyOpt extends jsTruthy to possibly-undefined values. -/
def jsTruthyOpt : Option Json → Bool
  | none => false
  | some v => jsTruthy v

/-- isObjectType models the JS test typeof x === "object" (true for null,
arrays and plain objects). -/
def isObjectType : Json → Bool
  | .null => true
  | .arr _ => true
  | .obj _ => true
  | _ => false

/-- jsEqNum models the JS strict equality test j === n against an integer n. -/
def jsEqNum (j : Option Json) (n : Int) : Bool :=
  match j with
  | some (.num q) => q == (n : Rat)
  | _ => false

/-- isJsonWs recognizes the four whitespace characters accepted by strict
JSON.parse. -/
def isJsonWs (c : Char) : Bool :=
  c == ' ' || c == '\t' || c == '\n' || c == '\r'

/-- skipJsonWs drops leading JSON whitespace. -/
def skipJsonWs : List Char → List Char
  | [] => []
  | c :: cs => if isJsonWs c then skipJsonWs cs else c :: cs

/-- hexDigitVal converts a hex digit character to its value, phrased over
code points: digits are 48-57, lower-case letters 97-102, upper-case 65-70. -/
def hexDigitVal (c : Char) : Option Nat :=
  let n := c.toNat
  if 48 ≤ n && n < 58 then some (n - 48)
  else if 97 ≤ n && n < 103 then some (n - 87)
  else if 65 ≤ n && n < 71 then some (n - 55)
  else none

/-- parseStringChars consumes the body of a JSON string literal after the
opening quote, handling the escape sequences JSON.parse accepts, and returns
the decoded characters together with the input remaining after the closing
quote. Raw control characters are rejected as in strict JSON. -/
def parseStringChars : List Char → Option (List Char × List Char)
  | [] => none
  | '\"' :: cs => some ([], cs)
  | '\\' :: e :: cs =>
    match e with
    | '\"' => (parseStringChars cs).map (fun p => ('\"' :: p.1, p.2))
    | '\\' => (parseStringChars cs).map (fun p => ('\\' :: p.1, p.2))
    | '/' => (parseStringChars cs).map (fun p => ('/' :: p.1, p.2))
    | 'b' => (parseStringChars cs).map (fun p => ('\x08' :: p.1, p.2))
    | 'f' => (parseStringChars cs).map (fun p => ('\x0c' :: p.1, p.2))
    | 'n' => (parseStringChars cs).map (fun p => ('\n' :: p.1, p.2))
    | 'r' => (parseStringChars cs).map (fun p => ('\r' :: p.1, p.2))
    | 't' => (parseStringChars cs).map (fun p => ('\t' :: p.1, p.2))
    | 'u' =>
      match cs with
      | h1 :: h2 :: h3 :: h4 :: cs' =>
        match hexDigitVal h1, hexDigitVal h2, hexDigitVal h3, hexDigitVal h4 with
        | some a, some b, some c, some d =>
          let n := ((a * 16 + b) * 16 + c) * 16 + d
          if n < 0xd800 ∨ (0xdfff < n ∧ n < 0x110000) then
            (parseStringChars cs').map (fun p => (Char.ofNat n :: p.1, p.2))
          else none
        | _, _, _, _ => none
      | _ => none
    | _ => none
  | c :: cs =>
    if c.toNat < 0x20 then none
    else (parseStringChars cs).map (fun p => (c :: p.1, p.2))

/-- digitsToNat folds a run of decimal digit characters into a natural. -/
def digitsToNat (ds : List Char) : Nat :=
  ds.foldl (fun a c => a * 10 + (c.toNat - '0'.toNat)) 0

/-- tenPowRat raises ten to a possibly negative integer power as a rational. -/
def tenPowRat (e : Int) : Rat :=
  if 0 ≤ e then ((10 : Rat) ^ e.toNat) else 1 / ((10 : Rat) ^ (-e).toNat)

/-- parseNumberChars consumes a strict JSON number (optional minus, no leading
zeros, optional fraction and exponent) and returns its exact rational value
with the remaining input. -/
def parseNumberChars (cs : List Char) : Option (Rat × List Char) :=
  let (neg, cs1) :=
    match cs with
    | '-' :: rest => (true, rest)
    | _ => (false, cs)
  let intPart := cs1.takeWhile Char.isDigit
  let cs2 := cs1.dropWhile Char.isDigit
  if intPart.isEmpty then none
  else if intPart.length > 1 && intPart.headD '0' == '0' then none
  else
    let (fracDigits, cs3) :=
      match cs2 with
      | '.' :: rest => (rest.takeWhile Char.isDigit, rest.dropWhile Char.isDigit)
      | _ => ([], cs2)
    let fracOk :=
      match cs2 with
      | '.' :: _ => !fracDigits.isEmpty
      | _ => true
    if !fracOk then none
    else
      let expParse : Option (Int × List Char) :=
        match cs3 with
        | 'e' :: rest =>
          let (esign, rest1) :=
            match rest with
            | '+' :: r => ((1 : Int), r)
            | '-' :: r => ((-1 : Int), r)
            | _ => ((1 : Int), rest)
          let eds := rest1.takeWhile Char.isDigit
          let rest2 := rest1.dropWhile Char.isDigit
          if eds.isEmpty then none else some (esign * (digitsToNat eds : Int), rest2)
        | 'E' :: rest =>
          let (esign, rest1) :=
            match rest with
            | '+' :: r => ((1 : Int), r)
            | '-' :: r => ((-1 : Int), r)
            | _ => ((1 : Int), rest)
          let eds := rest1.takeWhile Char.isDigit
          let rest2 := rest1.dropWhile Char.isDigit
          if eds.isEmpty then none else some (esign * (digitsToNat eds : Int), rest2)
        | _ => some (0, cs3)
      match expParse with
      | none => none
      | some (e, csRest) =>
        let mag : Rat :=
          ((digitsToNat intPart : Int) : Rat)
            + ((digitsToNat fracDigits : Int) : Rat) / ((10 : Rat) ^ fracDigits.length)
        let signed := if neg then -mag else mag
        some (signed * tenPowRat e, csRest)

mutual

/-- parseJsonValue parses one JSON value starting exactly at the head of the
input (the caller skips whitespace), returning the value and the rest. -/
def parseJsonValue : Nat → List Char → Option (Json × List Char)
  | 0, _ => none
  | Nat.succ fuel, cs =>
    match cs with
    | 'n' :: 'u' :: 'l' :: 'l' :: rest => some (.null, rest)
    | 't' :: 'r' :: 'u' :: 'e' :: rest => some (.bool true, rest)
    | 'f' :: 'a' :: 'l' :: 's' :: 'e' :: rest => some (.bool false, rest)
    | '\"' :: rest =>
      match parseStringChars rest with
      | some (body, rest') => some (.str (String.mk body), rest')
      | none => none
    | '[' :: rest =>
      match skipJsonWs rest with
      | ']' :: rest' => some (.arr [], rest')
      | cs' =>
        match parseJsonItems fuel cs' with
        | some (xs, rest') => some (.arr xs, rest')
        | none => none
    | '\x7b' :: rest =>
      match skipJsonWs rest with
      | '\x7d' :: rest' => some (.obj [], rest')
      | cs' =>
        match parseJsonFields fuel cs' with
        | some (fs, rest') => some (.obj fs, rest')
        | none => none
    | _ =>
      match parseNumberChars cs with
      | some (q, rest) => some (.num q, rest)
      | none => none

/-- parseJsonItems parses the elements of a non-empty JSON array, starting at
the first element, through the closing bracket. -/
def parseJsonItems : Nat → List Char → Option (List Json × List Char)
  | 0, _ => none
  | Nat.succ fuel, cs =>
    match parseJsonValue fuel cs with
    | none => none
    | some (v, rest) =>
      match skipJsonWs rest with
      | ',' :: rest' =>
        match parseJsonItems fuel (skipJsonWs rest') with
        | some (xs, rest'') => some (v :: xs, rest'')
        | none => none
      | ']' :: rest' => some ([v], rest')
      | _ => none

/-- parseJsonFields parses the members of a non-empty JSON object, starting at
the first key, through the closing brace. -/
def parseJsonFields : Nat → List Char → Option (List (String × Json) × List Char)
  | 0, _ => none
  | Nat.succ fuel, cs =>
    match cs with
    | '\"' :: rest =>
      match parseStringChars rest with
      | none => none
      | some (key, rest1) =>
        match skipJsonWs rest1 with
        | ':' :: rest2 =>
          match parseJsonValue fuel (skipJsonWs rest2) with
          | none => none
          | some (v, rest3) =>
            match skipJsonWs rest3 with
            | ',' :: rest4 =>
              match parseJsonFields fuel (skipJsonWs rest4) with
              | some (fs, rest5) => some ((String.mk key, v) :: fs, rest5)
              | none => none
            | '\x7d' :: rest4 => some ([(String.mk key, v)], rest4)
            | _ => none
        | _ => none
    | _ => none

end

/-- tryParseJson models the source helper tryParseJson: strict JSON.parse
wrapped in try/catch, returning null (here none) on any syntax error. -/
def tryParseJson (text : String) : Option Json :=
  let cs := skipJsonWs text.toList
  match parseJsonValue (2 * cs.length + 8) cs with
  | some (j, rest) => if (skipJsonWs rest).isEmpty then some j else none
  | none => none

/-- escapeJsonChar renders one character as JSON.stringify does inside a
string literal. -/
def escapeJsonChar (c : Char) : List Char :=
  if c == '\"' then ['\\', '\"']
  else if c == '\\' then ['\\', '\\']
  else if c == '\x08' then ['\\', 'b']
  else if c == '\t' then ['\\', 't']
  else if c == '\n' then ['\\', 'n']
  else if c == '\x0c' then ['\\', 'f']
  else if c == '\r' then ['\\', 'r']
  else if c.toNat < 0x20 then
    let lo := c.toNat % 16
    let hi := c.toNat / 16
    let hexChar := fun (n : Nat) => if n < 10 then Char.ofNat ('0'.toNat + n) else Char.ofNat ('a'.toNat + n - 10)
    ['\\', 'u', '0', '0', hexChar hi, hexChar lo]
  else [c]

/-- encodeJsonString renders a string as a quoted JSON string literal. -/
def encodeJsonString (s : String) : String :=
  String.mk ('\"' :: (s.toList.foldr (fun c acc => escapeJsonChar c ++ acc) ['\"']))

mutual

/-- serializeJson models JSON.stringify on parsed JSON values. Non-integer
numbers are rendered in rational notation, a simplification that is never
exercised by the subsystem under verification (all serialized numbers there
are integers). -/
def serializeJson : Json → String
  | .null => "null"
  | .bool true => "true"
  | .bool false => "false"
  | .num q => if q.den == 1 then toString q.num else toString q
  | .str s => encodeJsonString s
  | .arr xs => "[" ++ serializeJsonList xs ++ "]"
  | .obj fs => "\x7b" ++ serializeJsonFields fs ++ "\x7d"

/-- serializeJsonList renders array elements joined by commas. -/
def serializeJsonList : List Json → String
  | [] => ""
  | [x] => serializeJson x
  | x :: y :: rest => serializeJson x ++ "," ++ serializeJsonList (y :: rest)

/-- serializeJsonFields renders object members joined by commas. -/
def serializeJsonFields : List (String × Json) → String
  | [] => ""
  | [(k, v)] => encodeJsonString k ++ ":" ++ serializeJson v
  | (k, v) :: f :: rest =>
    encodeJsonString k ++ ":" ++ serializeJson v ++ "," ++ serializeJsonFields (f :: rest)

end

/-- toolResultToString models result.ts toolResultToString: a string result is
passed through, anything else is JSON.stringify-ed. -/
def toolResultToString : Json → String
  | .str s => s
  | j => serializeJson j

/-- isJsWhitespace models the JS regex class backslash-s restricted to its
ASCII members (space, tab, line feed, vertical tab, form feed, carriage
return), which covers every input the heuristics are used on. -/
def isJsWhitespace (c : Char) : Bool :=
  c == ' ' || c == '\t' || c == '\n' || c == '\x0b' || c == '\x0c' || c == '\r'

/-- isJsWordChar models the JS regex class backslash-w. -/
def isJsWordChar (c : Char) : Bool :=
  c.isAlphanum || c == '_'

/-- toLowerStr models String.prototype.toLowerCase for the ASCII range. -/
def toLowerStr (s : String) : String :=
  String.mk (s.toList.map Char.toLower)

/-- trimStr models String.prototype.trim. -/
def trimStr (s : String) : String :=
  String.mk (((s.toList.dropWhile isJsWhitespace).reverse.dropWhile isJsWhitespace).reverse)

/-- listStartsWith checks whether the second list begins with the first. -/
def listStartsWith : List Char → List Char → Bool
  | [], _ => true
  | _ :: _, [] => false
  | p :: ps, c :: cs => p == c && listStartsWith ps cs

/-- listContainsSub checks whether the pattern occurs as a contiguous
subsequence, modelling String.prototype.includes. -/
def listContainsSub (pat : List Char) : List Char → Bool
  | [] => listStartsWith pat []
  | c :: cs => listStartsWith pat (c :: cs) || listContainsSub pat cs

/-- strIncludes models String.prototype.includes. -/
def strIncludes (s pat : String) : Bool :=
  listContainsSub pat.toList s.toList

/-- countOccur counts the occurrences of a pattern in a character list (the
pattern used below cannot overlap itself, so position counting agrees with a
non-overlapping scan). -/
def countOccur (pat : List Char) : List Char → Nat
  | [] => 0
  | c :: cs => (if listStartsWith pat (c :: cs) then 1 else 0) + countOccur pat cs

/-- digitVal gives the value of one decimal digit character. -/
def digitVal (c : Char) : Nat := c.toNat - '0'.toNat

/-- boundaryAfter checks the JS word-boundary condition immediately after a
matched word character: end of input or a non-word character. -/
def boundaryAfter : List Char → Bool
  | [] => true
  | c :: _ => !isJsWordChar c

/-- matchDigits12 matches the regex fragment backslash-d repeated once or
twice followed by a word boundary, with the backtracking behaviour of a
greedy quantifier: two digits are preferred, one digit is accepted only when
the character after it is a non-word character, and a digit run of length
three or more can never satisfy the boundary. -/
def matchDigits12 : List Char → Option Nat
  | [] => none
  | d1 :: rest =>
    if d1.isDigit then
      match rest with
      | [] => some (digitVal d1)
      | d2 :: rest2 =>
        if d2.isDigit then
          if boundaryAfter rest2 then some (digitVal d1 * 10 + digitVal d2) else none
        else if !isJsWordChar d2 then some (digitVal d1) else none
    else none

/-- tryOptionHere attempts the regex option backslash-s+ digits at the start
of the input. -/
def tryOptionHere (cs : List Char) : Option Nat :=
  if listStartsWith ['o', 'p', 't', 'i', 'o', 'n'] cs then
    let rest := cs.drop 6
    let ws := rest.takeWhile isJsWhitespace
    let rest1 := rest.dropWhile isJsWhitespace
    if ws.isEmpty then none else matchDigits12 rest1
  else none

/-- scanOptionNum scans for the leftmost match of the regex
option backslash-s+ ( backslash-d repeated once or twice ) boundary. -/
def scanOptionNum : List Char → Option Nat
  | [] => none
  | c :: cs =>
    match tryOptionHere (c :: cs) with
    | some n => some n
    | none => scanOptionNum cs

/-- matchBareNumber matches the anchored regex start backslash-s*
( backslash-d once or twice ) backslash-s* end against the whole input. -/
def matchBareNumber (cs : List Char) : Option Nat :=
  let afterWs := cs.dropWhile isJsWhitespace
  let ds := afterWs.takeWhile Char.isDigit
  let rest := afterWs.dropWhile Char.isDigit
  if (ds.length == 1 || ds.length == 2) && (rest.dropWhile isJsWhitespace).isEmpty then
    some (digitsToNat ds)
  else none

/-- parseOptionChoice models intent/parse.ts parseOptionChoice: lower-case the
text, try the option-N regex, then the ordinal words, then a bare one-or-two
digit number. -/
def parseOptionChoice (text : String) : Option Nat :=
  let t := toLowerStr text
  match scanOptionNum t.toList with
  | some n => some n
  | none =>
    if strIncludes t "first" then some 1
    else if strIncludes t "second" then some 2
    else if strIncludes t "third" then some 3
    else if strIncludes t "fourth" then some 4
    else if strIncludes t "fifth" then some 5
    else matchBareNumber t.toList

/-- scanQtyNum scans for the leftmost match of the regex boundary
( backslash-d once or twice ) boundary, tracking the previous character for
the leading word-boundary test. -/
def scanQtyNum (prevIsWord : Bool) : List Char → Option Nat
  | [] => none
  | c :: cs =>
    match (if prevIsWord then none else matchDigits12 (c :: cs)) with
    | some n => some n
    | none => scanQtyNum (isJsWordChar c) cs

/-- parseQuantity models intent/parse.ts parseQuantity: trim and lower-case,
special-case the word one, then take the first bounded one-or-two digit
number if it lies in the range one to twenty. -/
def parseQuantity (text : String) : Option Nat :=
  let t := toLowerStr (trimStr text)
  if t == "one" || t == "1" || strIncludes t "just one" then some 1
  else
    match scanQtyNum false t.toList with
    | none => none
    | some n => if n == 0 || n > 20 then none else some n

/-- AgentSession models session/state.ts AgentSession. Fields that are JS
value-or-null are modelled as Option Json (none standing for null); the two
selection fields are JS number-or-null, modelled as Option Int. -/
structure AgentSession where
  lastShipsTo : Option Json
  lastShopifyOptions : Option (List Json)
  lastShopifyQuery : Option Json
  selectedOptionIndex : Option Int
  selectedQuantity : Option Int

/-- initialSession is the process-start session with every field null. -/
def initialSession : AgentSession :=
  { lastShipsTo := none
    lastShopifyOptions := none
    lastShopifyQuery := none
    selectedOptionIndex := none
    selectedQuantity := none }

/-- truthyIntOpt models JS truthiness of a number-or-null field: null and
zero are falsy. -/
def truthyIntOpt : Option Int → Bool
  | none => false
  | some n => n != 0

/-- unwrapToolSpecResult models shopifyState.ts unwrapToolSpecResult: a
wrapped ok-true result with an object-typed data payload is flattened by
spreading data after the ok key (so a duplicate ok inside data wins, exactly
as the JS object spread behaves). -/
def unwrapToolSpecResult (j : Json) : Json :=
  if jsTruthy j && isObjectType j then
    match jsGet j "ok", jsGet j "data" with
    | some (.bool true), some d =>
      if jsTruthy d && isObjectType d then
        match d with
        | .obj f => .obj (("ok", .bool true) :: f)
        | .arr xs => .obj (("ok", .bool true) :: (xs.enum.map (fun p => (toString p.1, p.2))))
        | _ => j
      else j
    | _, _ => j
  else j

/-- tryParseShopifySearchResult models shopifyState.ts
tryParseShopifySearchResult: parse, require a non-null object, unwrap a
wrapped ToolSpec result, and require a boolean ok field. -/
def tryParseShopifySearchResult (text : String) : Option Json :=
  match tryParseJson text with
  | none => none
  | some raw =>
    if jsTruthy raw && isObjectType raw then
      let o := unwrapToolSpecResult raw
      if jsTruthy o && isObjectType o then
        match jsGet o "ok" with
        | some (.bool _) => some o
        | _ => none
      else none
    else none

/-- nullCollapse models the JS expression x ?? null stored into a nullable
field: undefined and null both become null (none). -/
def nullCollapse : Option Json → Option Json
  | some .null => none
  | x => x

/-- updateSessionFromShopifyResult models shopifyState.ts
updateSessionFromShopifyResult: on a structurally valid successful search
result the options are replaced wholesale, query and (when truthy) ships_to
are updated, and both selection fields are cleared; on anything else the
session is returned untouched. -/
def updateSessionFromShopifyResult (s : AgentSession) (resultText : String) : AgentSession :=
  match tryParseShopifySearchResult resultText with
  | none => s
  | some parsed =>
    if jsTruthyOpt (jsGet parsed "ok") then
      match jsGet parsed "options" with
      | some (.arr opts) =>
        { lastShopifyOptions := some opts
          lastShopifyQuery := nullCollapse (jsGet parsed "query")
          lastShipsTo :=
            if jsTruthyOpt (jsGet parsed "ships_to") then jsGet parsed "ships_to"
            else s.lastShipsTo
          selectedOptionIndex := none
          selectedQuantity := none }
      | _ => s
    else s

/-- getCheckoutUrlForOption models shopifyState.ts getCheckoutUrlForOption:
null for a falsy index or null options, otherwise the checkout_url of the
first option whose option_index strictly equals the index, with a missing or
null field collapsing to null. -/
def getCheckoutUrlForOption (s : AgentSession) (optionIndex : Option Int) : Json :=
  match optionIndex, s.lastShopifyOptions with
  | some n, some opts =>
    if n == 0 then .null
    else
      match opts.find? (fun o => jsEqNum (jsGet o "option_index") n) with
      | some o =>
        match jsGet o "checkout_url" with
        | none => .null
        | some v => v
      | none => .null
  | _, _ => .null

/-- PlannedCall models one element of a validated plan (planner/schema.ts
PlannedCallSchema), with args kept as the parsed JSON object. -/
structure PlannedCall where
  name : String
  args : Json

/-- Plan models planner/schema.ts Plan. -/
structure Plan where
  tool_calls : List PlannedCall
  rationale : Option String

/-- parsePlannedCallJson models PlannedCallSchema.parse on one array element:
the element must be a plain object, name must be a non-empty string, and args
must be a plain object, defaulting to an empty one when absent. -/
def parsePlannedCallJson (j : Json) : Option PlannedCall :=
  match j with
  | .obj _ =>
    match jsGet j "name" with
    | some (.str s) =>
      if s == "" then none
      else
        match jsGet j "args" with
        | none => some { name := s, args := .obj [] }
        | some (.obj g) => some { name := s, args := .obj g }
        | some _ => none
    | _ => none
  | _ => none

/-- parseCallList validates every element of the tool_calls array in order. -/
def parseCallList : List Json → Option (List PlannedCall)
  | [] => some []
  | x :: xs =>
    match parsePlannedCallJson x with
    | none => none
    | some c =>
      match parseCallList xs with
      | none => none
      | some cs => some (c :: cs)

/-- parseToolCallsField models the tool_calls field of PlanSchema: an absent
field defaults to the empty list, a present field must be an array of at most
three valid planned calls, and anything else fails the whole parse. -/
def parseToolCallsField (v : Option Json) : Option (List PlannedCall) :=
  match v with
  | none => some []
  | some (.arr xs) => if xs.length ≤ 3 then parseCallList xs else none
  | some _ => none

/-- parseRationaleField models the optional rationale field: absent is
accepted as none, a string is accepted, any other value (null included) fails
the parse; the outer option is the parse outcome. -/
def parseRationaleField (v : Option Json) : Option (Option String) :=
  match v with
  | none => some none
  | some (.str s) => some (some s)
  | some _ => none

/-- planSchemaParse models PlanSchema.parse wrapped in try/catch: a plain
object whose tool_calls is a valid array of at most three calls and whose
rationale, if present, is a string. -/
def planSchemaParse (j : Json) : Option Plan :=
  match j with
  | .obj _ =>
    match parseToolCallsField (jsGet j "tool_calls") with
    | none => none
    | some calls =>
      match parseRationaleField (jsGet j "rationale") with
      | none => none
      | some r => some { tool_calls := calls, rationale := r }
  | _ => none

/-- extractJsonObject models planner/schema.ts extractJsonObject: the slice
from the first opening brace through the last closing brace, or null when the
braces are missing or out of order. -/
def extractJsonObject (text : String) : Option String :=
  let cs := text.toList
  match cs.findIdx? (fun c => c == '\x7b'), (cs.reverse.findIdx? (fun c => c == '\x7d')) with
  | some start, some revEnd =>
    let endIdx := cs.length - 1 - revEnd
    if endIdx ≤ start then none
    else some (String.mk ((cs.drop start).take (endIdx - start + 1)))
  | _, _ => none

/-- safeJsonParse models planner/schema.ts safeJsonParse, identical in
behaviour to tryParseJson. -/
def safeJsonParse (text : String) : Option Json :=
  tryParseJson text

/-- matchFlattenedTail matches the regex tail backslash-s* comma
backslash-s* quote name quote backslash-s* colon immediately after the
leading brace or bracket, returning the input after the colon. -/
def matchFlattenedTail (cs : List Char) : Option (List Char) :=
  let cs1 := cs.dropWhile isJsWhitespace
  match cs1 with
  | ',' :: rest =>
    let rest1 := rest.dropWhile isJsWhitespace
    if listStartsWith ['\"', 'n', 'a', 'm', 'e', '\"'] rest1 then
      let rest2 := (rest1.drop 6).dropWhile isJsWhitespace
      match rest2 with
      | ':' :: rest3 => some rest3
      | _ => none
    else none
  | _ => none

/-- replaceNamePat performs the global regex replacement used by the planner
JSON fixer: every occurrence of the opening character followed by the
flattened-name tail is replaced by the given literal, scanning left to right
without rescanning replacements, exactly as String.prototype.replace with a
global regex does. -/
def replaceNamePat (openC : Char) (rep : List Char) : Nat → List Char → List Char
  | 0, cs => cs
  | _ + 1, [] => []
  | fuel + 1, c :: cs =>
    if c == openC then
      match matchFlattenedTail cs with
      | some rest => rep ++ replaceNamePat openC rep fuel rest
      | none => c :: replaceNamePat openC rep fuel cs
    else c :: replaceNamePat openC rep fuel cs

/-- fixCommonPlannerJsonMistakes models planner/index.ts
fixCommonPlannerJsonMistakes: first rewrite close-brace comma name-key into
close-brace comma open-brace name-key, then rewrite close-bracket comma
name-key into comma open-brace name-key. -/
def fixCommonPlannerJsonMistakes (jsonText : String) : String :=
  let cs := jsonText.toList
  let cs1 := replaceNamePat '\x7d' ("\x7d,\x7b\"name\":".toList) (cs.length + 1) cs
  let cs2 := replaceNamePat ']' (",\x7b\"name\":".toList) (cs1.length + 1) cs1
  String.mk cs2

/-- parsePlanFromText models planner/index.ts parsePlanFromText: extract the
brace-delimited slice, try a strict parse plus schema validation, and on
failure apply the heuristic fixer and retry. -/
def parsePlanFromText (text : String) : Option Plan :=
  match extractJsonObject text with
  | none => none
  | some jsonText =>
    let attempt1 :=
      match safeJsonParse jsonText with
      | some o1 => planSchemaParse o1
      | none => none
    match attempt1 with
    | some p => some p
    | none =>
      match safeJsonParse (fixCommonPlannerJsonMistakes jsonText) with
      | some o2 => planSchemaParse o2
      | none => none

/-- objSetField models a JS property assignment on an object represented as
an ordered field list: every existing occurrence of the key has its value
replaced (keeping positions, so the last-occurrence lookup sees the new
value); a fresh key is appended. -/
def objSetField (fields : List (String × Json)) (key : String) (v : Json) : List (String × Json) :=
  if fields.any (fun f => f.1 == key) then
    fields.map (fun f => if f.1 == key then (f.1, v) else f)
  else fields ++ [(key, v)]

/-- backfillShipsTo models the runAgent planner pipeline step that copies
session.lastShipsTo into a shopify_search call whose args lack a truthy
ships_to. -/
def backfillShipsTo (lastShipsTo : Option Json) (c : PlannedCall) : PlannedCall :=
  if c.name == "shopify_search" then
    let fields := match c.args with | .obj f => f | _ => []
    let hasShips := jsTruthyOpt (lookupLast fields "ships_to")
    match lastShipsTo with
    | some st =>
      if !hasShips && jsTruthy st then { c with args := .obj (objSetField fields "ships_to" st) }
      else { c with args := .obj fields }
    | none => { c with args := .obj fields }
  else c

/-- plannedCallsPipeline models the runAgent post-validation pipeline over a
parsed plan: keep calls whose name is in the planner allow-list, keep calls
whose name is registered, cap to the first three, and back-fill ships_to. -/
def plannedCallsPipeline (allowed registry : List String) (lastShipsTo : Option Json)
    (p : Plan) : List PlannedCall :=
  (((p.tool_calls.filter (fun c => allowed.contains c.name)).filter
      (fun c => registry.contains c.name)).take 3).map (backfillShipsTo lastShipsTo)

/-- CheckoutTools packages the two tool executors handed to tryAutoCheckout;
an Except error models the executor throwing. -/
structure CheckoutTools where
  adjustCheckoutQuantity : Json → Except String Json
  openInBrowser : Json → Except String Json

/-- AutoCheckoutOutcome is the observable outcome of tryAutoCheckout: the
session after the call (the source mutates it in place), the returned didOpen
flag and message, and the argument logs of the two tool invocations. -/
structure AutoCheckoutOutcome where
  session : AgentSession
  didOpen : Bool
  message : Option String
  openCalls : List Json
  adjustCalls : List Json

/-- evalBuyIntentOutcome models evalBuyIntent: the supplied predicate either
returns a boolean or throws, and a throw is caught and treated as false. -/
def evalBuyIntentOutcome : Except String Bool → Bool
  | .ok b => b
  | .error _ => false

/-- adjustArgsFor is the argument object tryAutoCheckout hands the
quantity-adjustment tool: the resolved checkout URL and the selected
quantity. -/
def adjustArgsFor (s : AgentSession) : Json :=
  Json.obj [("url", getCheckoutUrlForOption s s.selectedOptionIndex),
            ("quantity", Json.num ((s.selectedQuantity.getD 0 : Int) : Rat))]

/-- adjustedFinalUrl models the URL-extraction step of tryAutoCheckout: the
adjustment result is serialized, reparsed, and its url field used when it is
a present non-null value, the original checkout URL otherwise. -/
def adjustedFinalUrl (fallback : Json) (adjustedRaw : Json) : Json :=
  match tryParseJson (toolResultToString adjustedRaw) with
  | none => fallback
  | some aj =>
    match jsGet aj "url" with
    | none => fallback
    | some .null => fallback
    | some v => v

/-- tryAutoCheckout models checkout/autoCheckout.ts tryAutoCheckout: gate on
buy intent, default a missing quantity to one once an option is selected,
resolve the checkout URL, adjust the quantity, extract the possibly-rewritten
URL (falling back to the original), and open the browser; an exception from
either tool is caught and reported as didOpen false. -/
def tryAutoCheckout (tools : CheckoutTools) (buyOutcome : Except String Bool)
    (s : AgentSession) : AutoCheckoutOutcome :=
  if !(evalBuyIntentOutcome buyOutcome) then
    { session := s, didOpen := false, message := none, openCalls := [], adjustCalls := [] }
  else
    let s1 :=
      if truthyIntOpt s.selectedOptionIndex && !(truthyIntOpt s.selectedQuantity) then
        { s with selectedQuantity := some 1 }
      else s
    if !(truthyIntOpt s1.selectedOptionIndex && truthyIntOpt s1.selectedQuantity) then
      { session := s1, didOpen := false, message := none, openCalls := [], adjustCalls := [] }
    else
      let checkoutUrl := getCheckoutUrlForOption s1 s1.selectedOptionIndex
      if !(jsTruthy checkoutUrl) then
        { session := s1, didOpen := false, message := none, openCalls := [], adjustCalls := [] }
      else
        let idx := s1.selectedOptionIndex.getD 0
        let qty := s1.selectedQuantity.getD 0
        match tools.adjustCheckoutQuantity (adjustArgsFor s1) with
        | .error _ =>
          { session := s1, didOpen := false, message := none, openCalls := [],
            adjustCalls := [adjustArgsFor s1] }
        | .ok adjustedRaw =>
          let finalUrl := adjustedFinalUrl checkoutUrl adjustedRaw
          let openArgs := Json.obj [("url", finalUrl)]
          match tools.openInBrowser openArgs with
          | .error _ =>
            { session := s1, didOpen := false, message := none, openCalls := [openArgs],
              adjustCalls := [adjustArgsFor s1] }
          | .ok _ =>
            { session := s1, didOpen := true,
              message := some ("Opening checkout now for Option " ++ toString idx
                ++ " (qty " ++ toString qty ++ ")."),
              openCalls := [openArgs], adjustCalls := [adjustArgsFor s1] }

/-- UrlParts carries the two WHATWG URL getters the checkout guardrail reads. -/
structure UrlParts where
  pathname : String
  search : String

/-- urlParse models the URL constructor for hierarchical absolute URLs of the
scheme://host[/path][?query][#fragment] shape (the only shape the shopping
tools ever produce): it returns the pathname (defaulting to a single slash)
and the search string (a question mark plus the non-empty query, or empty),
and fails - as the constructor throws - on anything without a scheme,
authority marker, or host. -/
def urlParse (u : String) : Option UrlParts :=
  let cs := u.toList
  let scheme := cs.takeWhile Char.isAlpha
  let rest := cs.dropWhile Char.isAlpha
  if scheme.isEmpty then none
  else
    match rest with
    | ':' :: '/' :: '/' :: rest1 =>
      let host := rest1.takeWhile (fun c => !(c == '/' || c == '?' || c == '#'))
      let rest2 := rest1.dropWhile (fun c => !(c == '/' || c == '?' || c == '#'))
      if host.isEmpty then none
      else
        let (path, rest3) :=
          match rest2 with
          | '/' :: _ =>
            (rest2.takeWhile (fun c => !(c == '?' || c == '#')),
             rest2.dropWhile (fun c => !(c == '?' || c == '#')))
          | _ => (['/'], rest2)
        let search :=
          match rest3 with
          | '?' :: qs =>
            let q := qs.takeWhile (fun c => !(c == '#'))
            if q.isEmpty then "" else String.mk ('?' :: q)
          | _ => ""
        some { pathname := String.mk path, search := search }
    | _ => none

/-- isLikelyCheckoutUrl models runAgent.ts isLikelyCheckoutUrl: parse the
URL (false when the constructor throws), lower-case the pathname and search,
and look for a cart path segment or a payment or checkout query marker. -/
def isLikelyCheckoutUrl (url : String) : Bool :=
  match urlParse url with
  | none => false
  | some parts =>
    let path := toLowerStr parts.pathname
    let qs := toLowerStr parts.search
    strIncludes path "/cart/" || strIncludes qs "payment=shop_pay" || strIncludes qs "checkout"

/-- MainLoopAction describes which executor the main tool loop actually runs
for one requested tool call. -/
inductive MainLoopAction where
  | openInBrowser (args : Json) : MainLoopAction
  | execRegistered (name : String) (args : Json) : MainLoopAction
  | unknownTool (name : String) : MainLoopAction

/-- dispatchToolCall models the per-call dispatch of the runAgent main tool
loop: a browser_read request on a string URL that looks like a checkout or
cart link is overridden into an open_in_browser invocation on that URL;
otherwise the registered executor (or an unknown-tool error result) runs. -/
def dispatchToolCall (registry : List String) (name : String) (args : Json) : MainLoopAction :=
  let override :=
    if name == "browser_read" then
      match jsGet args "url" with
      | some (.str u) => if u != "" && isLikelyCheckoutUrl u then some u else none
      | _ => none
    else none
  match override with
  | some u => .openInBrowser (Json.obj [("url", .str u)])
  | none =>
    if registry.contains name then .execRegistered name args else .unknownTool name

/-- applyUserSelection models the per-turn selection update in runAgent: a
truthy parsed option choice and a truthy parsed quantity are written into the
session. -/
def applyUserSelection (s : AgentSession) (text : String) : AgentSession :=
  let s1 :=
    match parseOptionChoice text with
    | some n => if n != 0 then { s with selectedOptionIndex := some (n : Int) } else s
    | none => s
  match parseQuantity text with
  | some q => if q != 0 then { s1 with selectedQuantity := some (q : Int) } else s1
  | none => s1

/-- TurnOp enumerates the session-mutating operations a user turn performs:
the selection-parsing update, folding a search result, and the auto-checkout
quantity defaulting (the only session write tryAutoCheckout performs). -/
inductive TurnOp where
  | user (text : String) : TurnOp
  | search (resultText : String) : TurnOp
  | autoQty : TurnOp

/-- stepOp runs one per-turn operation on the session. -/
def stepOp (s : AgentSession) : TurnOp → AgentSession
  | .user t => applyUserSelection s t
  | .search t => updateSessionFromShopifyResult s t
  | .autoQty =>
    if truthyIntOpt s.selectedOptionIndex && !(truthyIntOpt s.selectedQuantity) then
      { s with selectedQuantity := some 1 }
    else s

/-- runOps folds a sequence of per-turn operations from the initial session. -/
def runOps (ops : List TurnOp) : AgentSession :=
  ops.foldl stepOp initialSession

/-- selectionInvariantHolds decides the spec's session invariant: a set
selectedOptionIndex must strictly equal the option_index of some entry of the
current lastShopifyOptions. -/
def selectionInvariantHolds (s : AgentSession) : Bool :=
  match s.selectedOptionIndex with
  | none => true
  | some n => (s.lastShopifyOptions.getD []).any (fun o => jsEqNum (jsGet o "option_index") n)

/-- exceptIsOk reports whether a tool execution returned rather than threw. -/
def exceptIsOk : Except String Json → Bool
  | .ok _ => true
  | .error _ => false

/-- urlValueWellTyped expresses the data-model typing of a resolved checkout
URL: it is either null or a non-empty string (a checkout URL is never the
empty string). -/
def urlValueWellTyped : Json → Bool
  | .null => true
  | .str s => s != ""
  | _ => false

/-- jsonToolCallsCount parses a text and reads off the length of its
tool_calls array, when the text parses to an object carrying one. -/
def jsonToolCallsCount (text : String) : Option Nat :=
  match tryParseJson text with
  | some j =>
    match jsGet j "tool_calls" with
    | some (.arr xs) => some xs.length
    | _ => none
  | none => none

/-- nameKeyPattern is the brace-name-key pattern whose occurrences the spec
counts. -/
def nameKeyPattern : List Char := "\x7b\"name\":".toList

/-- fourCallPlanText is a well-formed plan JSON whose tool_calls array has
four entries, one more than the schema cap. -/
def fourCallPlanText : String :=
  "\x7b\"tool_calls\":[\x7b\"name\":\"a\",\"args\":\x7b\x7d\x7d,\x7b\"name\":\"b\",\"args\":\x7b\x7d\x7d,\x7b\"name\":\"c\",\"args\":\x7b\x7d\x7d,\x7b\"name\":\"d\",\"args\":\x7b\x7d\x7d],\"rationale\":\"r\"\x7d"

/-- flattenedBothBracesText reproduces the defect shape documented in the
fixer's own comment: the second tool_calls element has lost both of its
surrounding braces, leaving a stray name key after a closing brace inside the
array. -/
def flattenedBothBracesText : String :=
  "\x7b\"tool_calls\":[\x7b\"name\":\"web_search\",\"args\":\x7b\x7d\x7d,\"name\":\"shopify_search\",\"args\":\x7b\x7d],\"rationale\":\"r\"\x7d"

/-- flattenedCloseBraceText is the variant of the flattened defect in which
only the opening brace of the second element is missing while its closing
brace is present. -/
def flattenedCloseBraceText : String :=
  "\x7b\"tool_calls\":[\x7b\"name\":\"web_search\",\"args\":\x7b\x7d\x7d,\"name\":\"shopify_search\",\"args\":\x7b\x7d\x7d],\"rationale\":\"r\"\x7d"

/-- emptySuccessText is a successful catalog-search result with an empty
options array. -/
def emptySuccessText : String := "\x7b\"ok\":true,\"options\":[]\x7d"

/-- emptySuccessJson is the parse of emptySuccessText. -/
def emptySuccessJson : Json := Json.obj [("ok", .bool true), ("options", .arr [])]

/-- toolResultFailureExample is a ToolResult failure value as produced by the
tool registry (types.ts ToolResult, error branch). -/
def toolResultFailureExample : Json :=
  Json.obj [("ok", .bool false),
            ("error", Json.obj [("code", .str "TOOL_ERROR"), ("message", .str "network error")])]

/-- toolResultFailureText is that failure serialized to a string the way the
runtime serializes every tool result before reparsing. -/
def toolResultFailureText : String := toolResultToString toolResultFailureExample

/-- option2Json is a catalog option with index two and a checkout URL. -/
def option2Json : Json :=
  Json.obj [("option_index", Json.num 2), ("title", .str "Blue mug"),
            ("checkout_url", .str "https://shop.example/checkouts/abc")]

/-- dirtySession is a session with a live selection, used to observe
clearing and no-mutation behaviour. -/
def dirtySession : AgentSession :=
  { lastShipsTo := some (.str "US")
    lastShopifyOptions := some [option2Json]
    lastShopifyQuery := some (.str "mug")
    selectedOptionIndex := some 2
    selectedQuantity := some 4 }

/-- sessionOption2 has option two selected with no quantity chosen. -/
def sessionOption2 : AgentSession :=
  { lastShipsTo := none
    lastShopifyOptions := some [option2Json]
    lastShopifyQuery := none
    selectedOptionIndex := some 2
    selectedQuantity := none }

/-- okCheckoutTools are tool executors that both succeed, the adjuster
returning a raw JSON string with a rewritten url. -/
def okCheckoutTools : CheckoutTools :=
  { adjustCheckoutQuantity := fun _ => .ok (.str "\x7b\"url\":\"https://shop.example/adjusted\"\x7d")
    openInBrowser := fun _ => .ok .null }

/-- rawStringCheckoutTools are tool executors whose adjuster returns a raw
string that is not valid JSON. -/
def rawStringCheckoutTools : CheckoutTools :=
  { adjustCheckoutQuantity := fun _ => .ok (.str "not json")
    openInBrowser := fun _ => .ok .null }

/-- throwingAdjustTools are tool executors whose adjuster throws. -/
def throwingAdjustTools : CheckoutTools :=
  { adjustCheckoutQuantity := fun _ => .error "boom"
    openInBrowser := fun _ => .ok .null }

/-- throwingOpenTools are tool executors whose browser opener throws. -/
def throwingOpenTools : CheckoutTools :=
  { adjustCheckoutQuantity := fun _ => .ok (.str "not json")
    openInBrowser := fun _ => .error "browser gone" }

/-- threeCallPlanJson is a parsed plan object with three tool calls. -/
def threeCallPlanJson : Json :=
  Json.obj [("tool_calls",
    .arr [Json.obj [("name", .str "web_search"), ("args", Json.obj [])],
          Json.obj [("name", .str "shopify_search"), ("args", Json.obj [])],
          Json.obj [("name", .str "browser_read"), ("args", Json.obj [])]]),
    ("rationale", .str "r")]

/-- threeCallPlan is the validated form of threeCallPlanJson. -/
def threeCallPlan : Plan :=
  { tool_calls := [⟨"web_search", Json.obj []⟩, ⟨"shopify_search", Json.obj []⟩,
                   ⟨"browser_read", Json.obj []⟩]
    rationale := some "r" }

/-- cartUrlExample is a checkout-looking URL whose path contains a cart
segment. -/
def cartUrlExample : String := "https://shop.example.com/cart/31:1?payment=shop_pay"

/-- parseCallList_length: validating the elements of a tool_calls array
preserves its length. -/
theorem parseCallList_length (xs : List Json) (cs : List PlannedCall)
    (h : parseCallList xs = some cs) : cs.length = xs.length := by
  induction xs generalizing cs with
  | nil =>
    unfold parseCallList at h
    cases h
    rfl
  | cons x xs ih =>
    unfold parseCallList at h
    cases hx : parsePlannedCallJson x with
    | none => rw [hx] at h; exact Option.noConfusion h
    | some c =>
      rw [hx] at h
      cases hxs : parseCallList xs with
      | none => rw [hxs] at h; exact Option.noConfusion h
      | some cs' =>
        rw [hxs] at h
        cases h
        simp [List.length_cons, ih cs' hxs]

/-- tryParseShopify_ok_isBool: a value accepted by the search-result parser
always carries a boolean ok field. -/
theorem tryParseShopify_ok_isBool (text : String) (p : Json)
    (h : tryParseShopifySearchResult text = some p) :
    ∃ b, jsGet p "ok" = some (Json.bool b) := by
  cases hraw : tryParseJson text with
  | none =>
    simp only [tryParseShopifySearchResult, hraw] at h
    exact Option.noConfusion h
  | some raw =>
    simp only [tryParseShopifySearchResult, hraw] at h
    by_cases h1 : (jsTruthy raw && isObjectType raw) = true
    · rw [if_pos h1] at h
      by_cases h2 :
          (jsTruthy (unwrapToolSpecResult raw) && isObjectType (unwrapToolSpecResult raw)) = true
      · rw [if_pos h2] at h
        cases hok : jsGet (unwrapToolSpecResult raw) "ok" with
        | none =>
          simp only [hok] at h
          exact Option.noConfusion h
        | some v =>
          simp only [hok] at h
          cases v with
          | bool b =>
            cases h
            exact ⟨b, hok⟩
          | null => exact Option.noConfusion h
          | num q => exact Option.noConfusion h
          | str s => exact Option.noConfusion h
          | arr xs => exact Option.noConfusion h
          | obj fs => exact Option.noConfusion h
      · rw [if_neg h2] at h; exact Option.noConfusion h
    · rw [if_neg h1] at h; exact Option.noConfusion h

/-- jsTruthy_ne_null: a truthy JSON value is not null. -/
theorem jsTruthy_ne_null (j : Json) (h : jsTruthy j = true) : j ≠ Json.null := by
  intro he
  subst he
  simp [jsTruthy] at h

/-- getCheckoutUrl_ignores_quantity: resolving an option's checkout URL does
not depend on the selected quantity. -/
theorem getCheckoutUrl_ignores_quantity (s : AgentSession) (q : Option Int) (idx : Option Int) :
    getCheckoutUrlForOption { s with selectedQuantity := q } idx
      = getCheckoutUrlForOption s idx := rfl

/-- backfillShipsTo_name: the ships_to back-fill never renames a call. -/
theorem backfillShipsTo_name (st : Option Json) (c : PlannedCall) :
    (backfillShipsTo st c).name = c.name := by
  unfold backfillShipsTo
  split
  · cases st with
    | none => rfl
    | some v =>
      dsimp only
      split
      · rfl
      · rfl
  · rfl

/-- C1 counterexample: the reachable-state invariant claimed by the spec is
violated after a single user turn saying option seven against a session with
no loaded options: the turn handler stores the index without checking it
against lastShopifyOptions. -/
theorem selection_invariant_violated_reachable :
    selectionInvariantHolds (runOps [TurnOp.user "option 7"]) = false
      ∧ (runOps [TurnOp.user "option 7"]).selectedOptionIndex = some 7
      ∧ (runOps [TurnOp.user "option 7"]).lastShopifyOptions = none := by
  refine ⟨rfl, rfl, rfl⟩

/-- C1 amended: the clearing half of the invariant does hold - whenever
updateSessionFromShopifyResult actually replaces lastShopifyOptions, both
selection fields are null immediately afterwards. -/
theorem options_replacement_clears_selection (s : AgentSession) (text : String)
    (h : (updateSessionFromShopifyResult s text).lastShopifyOptions ≠ s.lastShopifyOptions) :
    (updateSessionFromShopifyResult s text).selectedOptionIndex = none
      ∧ (updateSessionFromShopifyResult s text).selectedQuantity = none := by
  cases hp : tryParseShopifySearchResult text with
  | none =>
    simp only [updateSessionFromShopifyResult, hp] at h
    exact absurd rfl h
  | some p =>
    simp only [updateSessionFromShopifyResult, hp] at h ⊢
    by_cases hok : jsTruthyOpt (jsGet p "ok") = true
    · rw [if_pos hok] at h ⊢
      cases hv : jsGet p "options" with
      | none =>
        simp only [hv] at h
        exact absurd rfl h
      | some v =>
        simp only [hv] at h ⊢
        cases v with
        | arr opts => exact ⟨rfl, rfl⟩
        | null => exact absurd rfl h
        | bool b => exact absurd rfl h
        | num q => exact absurd rfl h
        | str s2 => exact absurd rfl h
        | obj fs => exact absurd rfl h
    · rw [if_neg hok] at h
      exact absurd rfl h

/-- C1 amended witness: an empty successful search on the initial session
replaces the (null) options with an empty sequence and the theorem yields the
cleared selection. -/
theorem options_replacement_clears_selection_witness :
    (updateSessionFromShopifyResult initialSession emptySuccessText).selectedOptionIndex = none
      ∧ (updateSessionFromShopifyResult initialSession emptySuccessText).selectedQuantity = none :=
  options_replacement_clears_selection initialSession emptySuccessText
    (by
      rw [show (updateSessionFromShopifyResult initialSession emptySuccessText).lastShopifyOptions
            = some [] from rfl]
      rw [show initialSession.lastShopifyOptions = none from rfl]
      exact fun hc => Option.noConfusion hc)

set_option maxRecDepth 100000 in
/-- C2 counterexample: a model plan whose tool_calls array has four entries
is valid JSON with four members, yet the repair pipeline rejects it wholesale
(schema validation fails and no plan is produced) instead of keeping the
first three. -/
theorem overlong_plan_rejected_not_truncated :
    jsonToolCallsCount fourCallPlanText = some 4
      ∧ parsePlanFromText fourCallPlanText = none := by
  refine ⟨rfl, rfl⟩

/-- C2 amended: a schema-valid plan never carries more than three tool calls
(longer arrays fail validation), and the runtime pipeline keeps at most the
first three of them in their original order (its output names form an
order-preserving subsequence of the plan's names). -/
theorem plan_cap_and_order :
    (∀ (j : Json) (p : Plan), planSchemaParse j = some p → p.tool_calls.length ≤ 3)
      ∧ (∀ (allowed registry : List String) (st : Option Json) (p : Plan),
          (plannedCallsPipeline allowed registry st p).length ≤ 3
            ∧ List.Sublist ((plannedCallsPipeline allowed registry st p).map (fun c => c.name))
                (p.tool_calls.map (fun c => c.name))) := by
  constructor
  · intro j p h
    cases j with
    | obj fs =>
      simp only [planSchemaParse] at h
      cases hf : parseToolCallsField (jsGet (Json.obj fs) "tool_calls") with
      | none =>
        simp only [hf] at h
        exact Option.noConfusion h
      | some calls =>
        simp only [hf] at h
        cases hr : parseRationaleField (jsGet (Json.obj fs) "rationale") with
        | none =>
          simp only [hr] at h
          exact Option.noConfusion h
        | some r =>
          simp only [hr] at h
          cases h
          cases hv : jsGet (Json.obj fs) "tool_calls" with
          | none =>
            simp only [parseToolCallsField, hv] at hf
            cases hf
            simp
          | some v =>
            simp only [parseToolCallsField, hv] at hf
            cases v with
            | arr xs =>
              have hf2 : (if xs.length ≤ 3 then parseCallList xs else none) = some calls := hf
              by_cases hl : xs.length ≤ 3
              · rw [if_pos hl] at hf2
                have hlen : calls.length = xs.length := parseCallList_length xs calls hf2
                simpa [hlen] using hl
              · rw [if_neg hl] at hf2
                exact Option.noConfusion hf2
            | null => exact Option.noConfusion hf
            | bool b => exact Option.noConfusion hf
            | num q => exact Option.noConfusion hf
            | str s => exact Option.noConfusion hf
            | obj g => exact Option.noConfusion hf
    | null => exact Option.noConfusion h
    | bool b => exact Option.noConfusion h
    | num q => exact Option.noConfusion h
    | str s => exact Option.noConfusion h
    | arr xs => exact Option.noConfusion h
  · intro allowed registry st p
    have hsub :
        List.Sublist
          (((p.tool_calls.filter (fun c => allowed.contains c.name)).filter
            (fun c => registry.contains c.name)).take 3) p.tool_calls :=
      ((List.take_sublist 3 _).trans (List.filter_sublist _)).trans (List.filter_sublist _)
    constructor
    · unfold plannedCallsPipeline
      rw [List.length_map]
      exact List.length_take_le 3 _
    · unfold plannedCallsPipeline
      have hmap :
          ((((p.tool_calls.filter (fun c => allowed.contains c.name)).filter
              (fun c => registry.contains c.name)).take 3).map
                (backfillShipsTo st)).map (fun c : PlannedCall => c.name)
            = (((p.tool_calls.filter (fun c => allowed.contains c.name)).filter
              (fun c => registry.contains c.name)).take 3).map (fun c : PlannedCall => c.name) := by
        rw [List.map_map]
        exact List.map_congr_left (fun c _ => backfillShipsTo_name st c)
      rw [hmap]
      exact List.Sublist.map (fun c : PlannedCall => c.name) hsub

/-- C2 amended witness: the bound instantiated at a concrete three-call plan
object. -/
theorem plan_cap_and_order_witness :
    planSchemaParse threeCallPlanJson = some threeCallPlan
      ∧ threeCallPlan.tool_calls.length ≤ 3 :=
  ⟨rfl, plan_cap_and_order.1 threeCallPlanJson threeCallPlan rfl⟩

/-- C3 counterexample: on the fixer's own documented defect shape (the
flattened element missing both braces) the repaired text still fails to
parse, so the repair does not yield a parseable tool_calls array there. -/
theorem flattened_repair_fails_doc_example :
    tryParseJson flattenedBothBracesText = none
      ∧ tryParseJson (fixCommonPlannerJsonMistakes flattenedBothBracesText) = none := by
  refine ⟨rfl, rfl⟩

/-- C3 amended: the regex repair only reinstates the missing opening brace,
so it succeeds exactly on flattened elements whose closing brace survived: on
such a text the repaired string parses and its tool_calls member count equals
the number of brace-name-key occurrences in the repaired string. -/
theorem flattened_repair_open_brace_only :
    tryParseJson flattenedCloseBraceText = none
      ∧ jsonToolCallsCount (fixCommonPlannerJsonMistakes flattenedCloseBraceText) = some 2
      ∧ countOccur nameKeyPattern (fixCommonPlannerJsonMistakes flattenedCloseBraceText).toList = 2 := by
  refine ⟨rfl, rfl, rfl⟩

/-- C4: every result text parsing to a structurally valid successful search
result (boolean ok true and an options array, the empty array included)
replaces lastShopifyOptions wholesale with the parsed options and nulls both
selection fields, whatever their prior values. -/
theorem update_success_replaces_and_clears (s : AgentSession) (text : String)
    (p : Json) (opts : List Json)
    (hp : tryParseShopifySearchResult text = some p)
    (hok : jsGet p "ok" = some (Json.bool true))
    (hopts : jsGet p "options" = some (Json.arr opts)) :
    (updateSessionFromShopifyResult s text).lastShopifyOptions = some opts
      ∧ (updateSessionFromShopifyResult s text).selectedOptionIndex = none
      ∧ (updateSessionFromShopifyResult s text).selectedQuantity = none := by
  have hcond : jsTruthyOpt (jsGet p "ok") = true := by rw [hok]; rfl
  simp only [updateSessionFromShopifyResult, hp]
  rw [if_pos hcond, hopts]
  exact ⟨rfl, rfl, rfl⟩

/-- C4 witness: an empty successful result clears a dirty session's
selection and installs the empty options sequence. -/
theorem update_success_replaces_and_clears_witness :
    tryParseShopifySearchResult emptySuccessText = some emptySuccessJson
      ∧ ((updateSessionFromShopifyResult dirtySession emptySuccessText).lastShopifyOptions = some []
         ∧ (updateSessionFromShopifyResult dirtySession emptySuccessText).selectedOptionIndex = none
         ∧ (updateSessionFromShopifyResult dirtySession emptySuccessText).selectedQuantity = none) :=
  ⟨rfl, update_success_replaces_and_clears dirtySession emptySuccessText emptySuccessJson [] rfl rfl rfl⟩

/-- C5: any input that is not a structurally valid successful search result -
malformed JSON, a non-true ok, or a missing options array - leaves every
session field unchanged; and a serialized ToolResult failure round-trips
through the wrapped-result unwrap logic to a boolean ok false and causes no
mutation. -/
theorem update_non_success_no_mutation :
    (∀ (s : AgentSession) (text : String),
        (∀ p, tryParseShopifySearchResult text = some p →
          jsGet p "ok" ≠ some (Json.bool true)
            ∨ ∀ opts, jsGet p "options" ≠ some (Json.arr opts)) →
        updateSessionFromShopifyResult s text = s)
      ∧ (tryParseShopifySearchResult toolResultFailureText = some toolResultFailureExample
         ∧ jsGet toolResultFailureExample "ok" = some (Json.bool false)
         ∧ ∀ s, updateSessionFromShopifyResult s toolResultFailureText = s) := by
  have main : ∀ (s : AgentSession) (text : String),
      (∀ p, tryParseShopifySearchResult text = some p →
        jsGet p "ok" ≠ some (Json.bool true)
          ∨ ∀ opts, jsGet p "options" ≠ some (Json.arr opts)) →
      updateSessionFromShopifyResult s text = s := by
    intro s text hcases
    cases hp : tryParseShopifySearchResult text with
    | none => simp only [updateSessionFromShopifyResult, hp]
    | some p =>
      simp only [updateSessionFromShopifyResult, hp]
      obtain ⟨b, hb⟩ := tryParseShopify_ok_isBool text p hp
      rcases hcases p hp with hok | hnoopts
      · cases b with
        | true => exact absurd hb hok
        | false =>
          have hcond : jsTruthyOpt (jsGet p "ok") = false := by rw [hb]; rfl
          rw [if_neg (show ¬ jsTruthyOpt (jsGet p "ok") = true by simp [hcond])]
      · by_cases hcond : jsTruthyOpt (jsGet p "ok") = true
        · rw [if_pos hcond]
          cases hv : jsGet p "options" with
          | none => rfl
          | some v =>
            cases v with
            | arr opts => exact absurd hv (hnoopts opts)
            | null => rfl
            | bool b2 => rfl
            | num q => rfl
            | str s2 => rfl
            | obj fs => rfl
        · rw [if_neg hcond]
  refine ⟨main, rfl, rfl, ?_⟩
  intro s
  refine main s toolResultFailureText ?_
  intro p hp
  rw [show tryParseShopifySearchResult toolResultFailureText
        = some toolResultFailureExample from rfl] at hp
  cases hp
  left
  intro hcontr
  rw [show jsGet toolResultFailureExample "ok" = some (Json.bool false) from rfl] at hcontr
  simp at hcontr

/-- C5 witness: malformed JSON leaves a dirty session untouched. -/
theorem update_non_success_no_mutation_witness :
    updateSessionFromShopifyResult dirtySession "not json" = dirtySession :=
  update_non_success_no_mutation.1 dirtySession "not json"
    (fun _ hp => by
      rw [show tryParseShopifySearchResult "not json" = none from rfl] at hp
      exact Option.noConfusion hp)

/-- C6: resolving an option index returns null for a null index or when no
current option matches, and returns exactly the stored checkout_url (null
when the field is absent) for the matching option; positive indices are the
data model's domain, and the JS falsiness of zero never meets it. -/
theorem getCheckoutUrl_resolution :
    (∀ s : AgentSession, getCheckoutUrlForOption s none = Json.null)
      ∧ (∀ (s : AgentSession) (n : Int),
          (∀ o ∈ s.lastShopifyOptions.getD [], jsEqNum (jsGet o "option_index") n = false) →
          getCheckoutUrlForOption s (some n) = Json.null)
      ∧ (∀ (s : AgentSession) (n : Int) (opts : List Json) (o : Json),
          n ≠ 0 → s.lastShopifyOptions = some opts →
          opts.find? (fun o2 => jsEqNum (jsGet o2 "option_index") n) = some o →
          getCheckoutUrlForOption s (some n) = (jsGet o "checkout_url").getD Json.null) := by
  refine ⟨?_, ?_, ?_⟩
  · intro s
    unfold getCheckoutUrlForOption
    cases s.lastShopifyOptions <;> rfl
  · intro s n hno
    unfold getCheckoutUrlForOption
    cases hopts : s.lastShopifyOptions with
    | none => rfl
    | some opts =>
      have hfind : opts.find? (fun o2 => jsEqNum (jsGet o2 "option_index") n) = none :=
        List.find?_eq_none.mpr
          (fun x hx => by simp [hno x (by rw [hopts]; exact hx)])
      show (if n == 0 then Json.null
            else match opts.find? (fun o2 => jsEqNum (jsGet o2 "option_index") n) with
              | some o =>
                match jsGet o "checkout_url" with
                | none => Json.null
                | some v => v
              | none => Json.null) = Json.null
      by_cases hn : (n == 0) = true
      · rw [if_pos hn]
      · rw [if_neg hn, hfind]
  · intro s n opts o hn hopts hfind
    unfold getCheckoutUrlForOption
    rw [hopts]
    show (if n == 0 then Json.null
          else match opts.find? (fun o2 => jsEqNum (jsGet o2 "option_index") n) with
            | some o2 =>
              match jsGet o2 "checkout_url" with
              | none => Json.null
              | some v => v
            | none => Json.null) = (jsGet o "checkout_url").getD Json.null
    have hnb : ¬ (n == 0) = true := by simpa using hn
    rw [if_neg hnb, hfind]
    show (match jsGet o "checkout_url" with
          | none => Json.null
          | some v => v) = (jsGet o "checkout_url").getD Json.null
    cases jsGet o "checkout_url" <;> rfl

/-- C6 witness: option two with a stored URL resolves to exactly that URL. -/
theorem getCheckoutUrl_resolution_witness :
    (2 : Int) ≠ 0
      ∧ getCheckoutUrlForOption sessionOption2 (some 2)
          = (jsGet option2Json "checkout_url").getD Json.null :=
  ⟨by decide,
   getCheckoutUrl_resolution.2.2 sessionOption2 2 [option2Json] option2Json (by decide) rfl rfl⟩

/-- autoCheckout_skip_no_buy: without buy intent the function returns
immediately, invoking nothing and touching nothing. -/
theorem autoCheckout_skip_no_buy (tools : CheckoutTools) (buy : Except String Bool)
    (s : AgentSession) (h : evalBuyIntentOutcome buy = false) :
    tryAutoCheckout tools buy s =
      { session := s, didOpen := false, message := none, openCalls := [], adjustCalls := [] } := by
  simp [tryAutoCheckout, h]

/-- autoCheckout_skip_no_selection: without a truthy selected option the
function returns before resolving a URL, invoking nothing and touching
nothing. -/
theorem autoCheckout_skip_no_selection (tools : CheckoutTools) (buy : Except String Bool)
    (s : AgentSession) (h : truthyIntOpt s.selectedOptionIndex = false) :
    tryAutoCheckout tools buy s =
      { session := s, didOpen := false, message := none, openCalls := [], adjustCalls := [] } := by
  cases hb : evalBuyIntentOutcome buy with
  | false => simp [tryAutoCheckout, hb]
  | true => simp [tryAutoCheckout, hb, h]

/-- autoCheckout_skip_null_url: when the selected option resolves to a falsy
checkout URL, no tool is invoked and nothing opens. -/
theorem autoCheckout_skip_null_url (tools : CheckoutTools) (buy : Except String Bool)
    (s : AgentSession)
    (h : jsTruthy (getCheckoutUrlForOption s s.selectedOptionIndex) = false) :
    (tryAutoCheckout tools buy s).didOpen = false
      ∧ (tryAutoCheckout tools buy s).openCalls = []
      ∧ (tryAutoCheckout tools buy s).adjustCalls = [] := by
  cases hb : evalBuyIntentOutcome buy with
  | false => rw [autoCheckout_skip_no_buy tools buy s hb]; exact ⟨rfl, rfl, rfl⟩
  | true =>
    have hnot : (!jsTruthy (getCheckoutUrlForOption s s.selectedOptionIndex)) = true := by
      rw [h]; rfl
    simp only [tryAutoCheckout, hb, Bool.not_true, Bool.false_eq_true, if_false]
    repeat' split
    all_goals first
      | exact ⟨rfl, rfl, rfl⟩
      | exact absurd hnot (by assumption)

/-- tryAutoCheckout_qty_default_eq: once buy intent holds and an option is
selected without a quantity, the run is identical to a run on the session
with quantity one - the defaulting step. -/
theorem tryAutoCheckout_qty_default_eq (tools : CheckoutTools) (buy : Except String Bool)
    (s : AgentSession)
    (hbuy : evalBuyIntentOutcome buy = true)
    (hidx : truthyIntOpt s.selectedOptionIndex = true)
    (hq : truthyIntOpt s.selectedQuantity = false) :
    tryAutoCheckout tools buy s
      = tryAutoCheckout tools buy { s with selectedQuantity := some 1 } := by
  have hone : truthyIntOpt (some 1) = true := rfl
  simp only [tryAutoCheckout, hbuy, hidx, hq, hone, Bool.not_true, Bool.not_false,
    Bool.and_true, Bool.and_false, Bool.and_self, Bool.false_eq_true, if_false, if_true]

/-- tryAutoCheckout_past_guards: with buy intent, a truthy selection, a truthy
quantity and a truthy resolved URL, the run is exactly the two tool
invocations with their catch semantics. -/
theorem tryAutoCheckout_past_guards (tools : CheckoutTools) (buy : Except String Bool)
    (s : AgentSession)
    (hbuy : evalBuyIntentOutcome buy = true)
    (hidx : truthyIntOpt s.selectedOptionIndex = true)
    (hq : truthyIntOpt s.selectedQuantity = true)
    (hurl : jsTruthy (getCheckoutUrlForOption s s.selectedOptionIndex) = true) :
    tryAutoCheckout tools buy s =
      (match tools.adjustCheckoutQuantity (adjustArgsFor s) with
       | .error _ =>
         { session := s, didOpen := false, message := none, openCalls := [],
           adjustCalls := [adjustArgsFor s] }
       | .ok adjustedRaw =>
         match tools.openInBrowser (Json.obj [("url",
             adjustedFinalUrl (getCheckoutUrlForOption s s.selectedOptionIndex) adjustedRaw)]) with
         | .error _ =>
           { session := s, didOpen := false, message := none,
             openCalls := [Json.obj [("url",
               adjustedFinalUrl (getCheckoutUrlForOption s s.selectedOptionIndex) adjustedRaw)]],
             adjustCalls := [adjustArgsFor s] }
         | .ok _ =>
           { session := s, didOpen := true,
             message := some ("Opening checkout now for Option "
               ++ toString (s.selectedOptionIndex.getD 0)
               ++ " (qty " ++ toString (s.selectedQuantity.getD 0) ++ ")."),
             openCalls := [Json.obj [("url",
               adjustedFinalUrl (getCheckoutUrlForOption s s.selectedOptionIndex) adjustedRaw)]],
             adjustCalls := [adjustArgsFor s] }) := by
  simp only [tryAutoCheckout, hbuy, hidx, hq, hurl, Bool.not_true, Bool.not_false,
    Bool.and_true, Bool.and_false, Bool.and_self, Bool.false_eq_true, if_false, if_true]

/-- C7: the browser-open tool is invoked only when buy intent holds, an
option is selected, and the selected option resolves to a non-null checkout
URL; and in the spec's example state (option two selected, quantity unset),
with well-typed stored URLs and non-throwing tools, checkout proceeds with
quantity one exactly when option two's checkout URL is non-null. -/
theorem autoCheckout_open_guarded :
    (∀ (tools : CheckoutTools) (buy : Except String Bool) (s : AgentSession),
        (tryAutoCheckout tools buy s).openCalls ≠ [] →
        evalBuyIntentOutcome buy = true
          ∧ truthyIntOpt s.selectedOptionIndex = true
          ∧ getCheckoutUrlForOption s s.selectedOptionIndex ≠ Json.null)
      ∧ (∀ (tools : CheckoutTools) (s : AgentSession),
          s.selectedOptionIndex = some 2 →
          s.selectedQuantity = none →
          (∀ j, exceptIsOk (tools.adjustCheckoutQuantity j) = true) →
          (∀ j, exceptIsOk (tools.openInBrowser j) = true) →
          urlValueWellTyped (getCheckoutUrlForOption s (some 2)) = true →
          ((tryAutoCheckout tools (Except.ok true) s).didOpen = true
              ↔ getCheckoutUrlForOption s (some 2) ≠ Json.null)
            ∧ ((tryAutoCheckout tools (Except.ok true) s).didOpen = true →
                (tryAutoCheckout tools (Except.ok true) s).adjustCalls
                  = [Json.obj [("url", getCheckoutUrlForOption s (some 2)),
                      ("quantity", Json.num 1)]])) := by
  constructor
  · intro tools buy s hne
    by_cases hb : evalBuyIntentOutcome buy = true
    · by_cases hidx : truthyIntOpt s.selectedOptionIndex = true
      · refine ⟨hb, hidx, ?_⟩
        by_cases hurl : jsTruthy (getCheckoutUrlForOption s s.selectedOptionIndex) = true
        · exact jsTruthy_ne_null _ hurl
        · exfalso
          apply hne
          exact (autoCheckout_skip_null_url tools buy s
            (by revert hurl
                cases jsTruthy (getCheckoutUrlForOption s s.selectedOptionIndex) <;> simp)).2.1
      · exfalso
        apply hne
        rw [autoCheckout_skip_no_selection tools buy s
          (by revert hidx; cases truthyIntOpt s.selectedOptionIndex <;> simp)]
    · exfalso
      apply hne
      rw [autoCheckout_skip_no_buy tools buy s
        (by revert hb; cases evalBuyIntentOutcome buy <;> simp)]
  · intro tools s hs2 hqty hadj hopen hwt
    have hidx : truthyIntOpt s.selectedOptionIndex = true := by rw [hs2]; rfl
    have hqf : truthyIntOpt s.selectedQuantity = false := by rw [hqty]; rfl
    have hbuy : evalBuyIntentOutcome (Except.ok true) = true := rfl
    cases hcase : getCheckoutUrlForOption s (some 2) with
    | null =>
      have hzero : jsTruthy (getCheckoutUrlForOption s s.selectedOptionIndex) = false := by
        rw [hs2, hcase]; rfl
      have hdid := (autoCheckout_skip_null_url tools (Except.ok true) s hzero).1
      constructor
      · rw [hdid]
        exact ⟨fun hc => Bool.noConfusion hc, fun hc => absurd rfl hc⟩
      · intro hc
        rw [hdid] at hc
        exact Bool.noConfusion hc
    | bool b =>
      rw [hcase] at hwt
      simp [urlValueWellTyped] at hwt
    | num q =>
      rw [hcase] at hwt
      simp [urlValueWellTyped] at hwt
    | arr xs =>
      rw [hcase] at hwt
      simp [urlValueWellTyped] at hwt
    | obj fs =>
      rw [hcase] at hwt
      simp [urlValueWellTyped] at hwt
    | str u =>
      have hu : (u != "") = true := by
        rw [hcase] at hwt
        simpa [urlValueWellTyped] using hwt
      have hdef := tryAutoCheckout_qty_default_eq tools (Except.ok true) s hbuy hidx hqf
      have hidx2 : truthyIntOpt
          ({ s with selectedQuantity := some 1 } : AgentSession).selectedOptionIndex = true := hidx
      have hq2 : truthyIntOpt
          ({ s with selectedQuantity := some 1 } : AgentSession).selectedQuantity = true := rfl
      have hurl2 : jsTruthy (getCheckoutUrlForOption { s with selectedQuantity := some 1 }
          ({ s with selectedQuantity := some 1 } : AgentSession).selectedOptionIndex) = true := by
        show jsTruthy
          (getCheckoutUrlForOption { s with selectedQuantity := some 1 } s.selectedOptionIndex) = true
        rw [getCheckoutUrl_ignores_quantity, hs2, hcase]
        exact hu
      have hpast := tryAutoCheckout_past_guards tools (Except.ok true)
        { s with selectedQuantity := some 1 } hbuy hidx2 hq2 hurl2
      have hargs : adjustArgsFor ({ s with selectedQuantity := some 1 } : AgentSession)
          = Json.obj [("url", Json.str u), ("quantity", Json.num 1)] := by
        unfold adjustArgsFor
        show Json.obj
            [("url", getCheckoutUrlForOption { s with selectedQuantity := some 1 }
                s.selectedOptionIndex),
             ("quantity", Json.num (((some (1 : Int)).getD 0 : Int) : Rat))]
          = Json.obj [("url", Json.str u), ("quantity", Json.num 1)]
        rw [getCheckoutUrl_ignores_quantity, hs2, hcase]
        simp
      have hfb : getCheckoutUrlForOption { s with selectedQuantity := some 1 }
          ({ s with selectedQuantity := some 1 } : AgentSession).selectedOptionIndex
            = Json.str u := by
        show getCheckoutUrlForOption { s with selectedQuantity := some 1 } s.selectedOptionIndex
          = Json.str u
        rw [getCheckoutUrl_ignores_quantity, hs2, hcase]
      rw [hdef, hpast, hargs, hfb]
      cases hA : tools.adjustCheckoutQuantity
          (Json.obj [("url", Json.str u), ("quantity", Json.num 1)]) with
      | error e =>
        have h2 := hadj (Json.obj [("url", Json.str u), ("quantity", Json.num 1)])
        rw [hA] at h2
        exact absurd h2 (by simp [exceptIsOk])
      | ok raw =>
        dsimp only
        cases hO : tools.openInBrowser
            (Json.obj [("url", adjustedFinalUrl (Json.str u) raw)]) with
        | error e2 =>
          have h2 := hopen (Json.obj [("url", adjustedFinalUrl (Json.str u) raw)])
          rw [hO] at h2
          exact absurd h2 (by simp [exceptIsOk])
        | ok v2 =>
          constructor
          · exact ⟨fun _ hnl => Json.noConfusion hnl, fun _ => rfl⟩
          · intro _
            rfl

/-- C7 witness: with option two carrying a URL and succeeding tools, the
theorem's equivalence yields an actual open with quantity one. -/
theorem autoCheckout_open_guarded_witness :
    sessionOption2.selectedOptionIndex = some 2
      ∧ sessionOption2.selectedQuantity = none
      ∧ (tryAutoCheckout okCheckoutTools (Except.ok true) sessionOption2).didOpen = true := by
  refine ⟨rfl, rfl, ?_⟩
  have h := (autoCheckout_open_guarded.2 okCheckoutTools sessionOption2 rfl rfl
    (fun _ => rfl) (fun _ => rfl) rfl).1
  exact h.mpr
    (by
      rw [show getCheckoutUrlForOption sessionOption2 (some 2)
            = Json.str "https://shop.example/checkouts/abc" from rfl]
      exact fun hc => Json.noConfusion hc)

/-- C8: when the quantity-adjustment result is a raw string that is
unparsable as JSON or parses without a usable url field, the original
checkout URL is what reaches the browser-open tool; and a throw from either
tool is caught, the function reporting didOpen false instead of re-raising
(the model is total, so the turn cannot crash). -/
theorem autoCheckout_url_fallback_and_catch :
    (∀ (tools : CheckoutTools) (buy : Except String Bool) (s : AgentSession) (strRes : String),
        evalBuyIntentOutcome buy = true →
        truthyIntOpt s.selectedOptionIndex = true →
        jsTruthy (getCheckoutUrlForOption s s.selectedOptionIndex) = true →
        (∀ j, tools.adjustCheckoutQuantity j = .ok (Json.str strRes)) →
        (tryParseJson strRes = none
          ∨ ∃ aj, tryParseJson strRes = some aj
              ∧ (jsGet aj "url" = none ∨ jsGet aj "url" = some Json.null)) →
        (tryAutoCheckout tools buy s).openCalls
          = [Json.obj [("url", getCheckoutUrlForOption s s.selectedOptionIndex)]])
      ∧ (∀ (tools : CheckoutTools) (buy : Except String Bool) (s : AgentSession) (e : String),
          (∀ j, tools.adjustCheckoutQuantity j = .error e) →
          (tryAutoCheckout tools buy s).didOpen = false)
      ∧ (∀ (tools : CheckoutTools) (buy : Except String Bool) (s : AgentSession)
            (v : Json) (e : String),
          (∀ j, tools.adjustCheckoutQuantity j = .ok v) →
          (∀ j, tools.openInBrowser j = .error e) →
          (tryAutoCheckout tools buy s).didOpen = false) := by
  refine ⟨?_, ?_, ?_⟩
  · intro tools buy s strRes hbuy hidx hurl hadjS hbad
    have hfb : ∀ fb : Json, adjustedFinalUrl fb (Json.str strRes) = fb := by
      intro fb
      unfold adjustedFinalUrl
      rcases hbad with hnone | ⟨aj, haj, hurlf⟩
      · simp [toolResultToString, hnone]
      · rcases hurlf with h1 | h1 <;> simp [toolResultToString, haj, h1]
    by_cases hq : truthyIntOpt s.selectedQuantity = true
    · rw [tryAutoCheckout_past_guards tools buy s hbuy hidx hq hurl]
      simp only [hadjS, hfb]
      split <;> rfl
    · have hqf : truthyIntOpt s.selectedQuantity = false := by
        revert hq; cases truthyIntOpt s.selectedQuantity <;> simp
      have hidx2 : truthyIntOpt
          ({ s with selectedQuantity := some 1 } : AgentSession).selectedOptionIndex = true := hidx
      have hq2 : truthyIntOpt
          ({ s with selectedQuantity := some 1 } : AgentSession).selectedQuantity = true := rfl
      have hurl2 : jsTruthy (getCheckoutUrlForOption { s with selectedQuantity := some 1 }
          ({ s with selectedQuantity := some 1 } : AgentSession).selectedOptionIndex) = true := by
        show jsTruthy
          (getCheckoutUrlForOption { s with selectedQuantity := some 1 }
            s.selectedOptionIndex) = true
        rw [getCheckoutUrl_ignores_quantity]
        exact hurl
      rw [tryAutoCheckout_qty_default_eq tools buy s hbuy hidx hqf,
          tryAutoCheckout_past_guards tools buy { s with selectedQuantity := some 1 }
            hbuy hidx2 hq2 hurl2]
      simp only [hadjS, hfb, getCheckoutUrl_ignores_quantity]
      split <;> rfl
  · intro tools buy s e hAerr
    by_cases hb : evalBuyIntentOutcome buy = true
    · by_cases hidx : truthyIntOpt s.selectedOptionIndex = true
      · by_cases hurlT : jsTruthy (getCheckoutUrlForOption s s.selectedOptionIndex) = true
        · by_cases hq : truthyIntOpt s.selectedQuantity = true
          · rw [tryAutoCheckout_past_guards tools buy s hb hidx hq hurlT, hAerr (adjustArgsFor s)]
          · have hqf : truthyIntOpt s.selectedQuantity = false := by
              revert hq; cases truthyIntOpt s.selectedQuantity <;> simp
            have hidx2 : truthyIntOpt
                ({ s with selectedQuantity := some 1 } : AgentSession).selectedOptionIndex
                  = true := hidx
            have hq2 : truthyIntOpt
                ({ s with selectedQuantity := some 1 } : AgentSession).selectedQuantity
                  = true := rfl
            have hurl2 : jsTruthy (getCheckoutUrlForOption { s with selectedQuantity := some 1 }
                ({ s with selectedQuantity := some 1 } : AgentSession).selectedOptionIndex)
                  = true := by
              show jsTruthy
                (getCheckoutUrlForOption { s with selectedQuantity := some 1 }
                  s.selectedOptionIndex) = true
              rw [getCheckoutUrl_ignores_quantity]
              exact hurlT
            rw [tryAutoCheckout_qty_default_eq tools buy s hb hidx hqf,
                tryAutoCheckout_past_guards tools buy { s with selectedQuantity := some 1 }
                  hb hidx2 hq2 hurl2,
                hAerr (adjustArgsFor { s with selectedQuantity := some 1 })]
        · exact (autoCheckout_skip_null_url tools buy s
            (by revert hurlT
                cases jsTruthy (getCheckoutUrlForOption s s.selectedOptionIndex) <;> simp)).1
      · rw [autoCheckout_skip_no_selection tools buy s
          (by revert hidx; cases truthyIntOpt s.selectedOptionIndex <;> simp)]
    · rw [autoCheckout_skip_no_buy tools buy s
        (by revert hb; cases evalBuyIntentOutcome buy <;> simp)]
  · intro tools buy s v e hAok hOerr
    by_cases hb : evalBuyIntentOutcome buy = true
    · by_cases hidx : truthyIntOpt s.selectedOptionIndex = true
      · by_cases hurlT : jsTruthy (getCheckoutUrlForOption s s.selectedOptionIndex) = true
        · by_cases hq : truthyIntOpt s.selectedQuantity = true
          · rw [tryAutoCheckout_past_guards tools buy s hb hidx hq hurlT]
            simp only [hAok, hOerr]
          · have hqf : truthyIntOpt s.selectedQuantity = false := by
              revert hq; cases truthyIntOpt s.selectedQuantity <;> simp
            have hidx2 : truthyIntOpt
                ({ s with selectedQuantity := some 1 } : AgentSession).selectedOptionIndex
                  = true := hidx
            have hq2 : truthyIntOpt
                ({ s with selectedQuantity := some 1 } : AgentSession).selectedQuantity
                  = true := rfl
            have hurl2 : jsTruthy (getCheckoutUrlForOption { s with selectedQuantity := some 1 }
                ({ s with selectedQuantity := some 1 } : AgentSession).selectedOptionIndex)
                  = true := by
              show jsTruthy
                (getCheckoutUrlForOption { s with selectedQuantity := some 1 }
                  s.selectedOptionIndex) = true
              rw [getCheckoutUrl_ignores_quantity]
              exact hurlT
            rw [tryAutoCheckout_qty_default_eq tools buy s hb hidx hqf,
                tryAutoCheckout_past_guards tools buy { s with selectedQuantity := some 1 }
                  hb hidx2 hq2 hurl2]
            simp only [hAok, hOerr]
        · exact (autoCheckout_skip_null_url tools buy s
            (by revert hurlT
                cases jsTruthy (getCheckoutUrlForOption s s.selectedOptionIndex) <;> simp)).1
      · rw [autoCheckout_skip_no_selection tools buy s
          (by revert hidx; cases truthyIntOpt s.selectedOptionIndex <;> simp)]
    · rw [autoCheckout_skip_no_buy tools buy s
        (by revert hb; cases evalBuyIntentOutcome buy <;> simp)]

/-- C8 witness: an adjust result that is not JSON leads to the original URL
being opened, and a throwing adjuster yields didOpen false. -/
theorem autoCheckout_url_fallback_and_catch_witness :
    tryParseJson "not json" = none
      ∧ (tryAutoCheckout rawStringCheckoutTools (Except.ok true) sessionOption2).openCalls
          = [Json.obj [("url",
              getCheckoutUrlForOption sessionOption2 sessionOption2.selectedOptionIndex)]]
      ∧ (tryAutoCheckout throwingAdjustTools (Except.ok true) sessionOption2).didOpen = false :=
  ⟨rfl,
   autoCheckout_url_fallback_and_catch.1 rawStringCheckoutTools (Except.ok true) sessionOption2
     "not json" rfl rfl rfl (fun _ => rfl) (Or.inl rfl),
   autoCheckout_url_fallback_and_catch.2.1 throwingAdjustTools (Except.ok true) sessionOption2
     "boom" (fun _ => rfl)⟩

/-- C10: with buy intent, a selected option and no quantity, tryAutoCheckout
writes quantity one into the session, and the write is visible in the
returned session no matter how the attempt ends - an unsuccessful
auto-checkout is not atomic with respect to session state. -/
theorem autoCheckout_qty_default_persists (tools : CheckoutTools) (buy : Except String Bool)
    (s : AgentSession)
    (hbuy : evalBuyIntentOutcome buy = true)
    (hidx : truthyIntOpt s.selectedOptionIndex = true)
    (hqty : s.selectedQuantity = none) :
    (tryAutoCheckout tools buy s).session.selectedQuantity = some 1 := by
  simp only [tryAutoCheckout, hbuy, hqty, hidx, truthyIntOpt, Bool.not_true, Bool.false_eq_true,
    if_false, bne_self_eq_false, Bool.not_false, Bool.and_true, Bool.and_self, if_true]
  repeat' split
  all_goals first
    | rfl
    | exact absurd hidx (by assumption)

/-- C10 witness: a throwing adjuster makes the attempt fail with didOpen
false, yet the defaulted quantity one persists in the session. -/
theorem autoCheckout_qty_default_persists_witness :
    (tryAutoCheckout throwingAdjustTools (Except.ok true) sessionOption2).didOpen = false
      ∧ (tryAutoCheckout throwingAdjustTools
          (Except.ok true) sessionOption2).session.selectedQuantity = some 1 :=
  ⟨rfl,
   autoCheckout_qty_default_persists throwingAdjustTools (Except.ok true) sessionOption2
     rfl rfl rfl⟩

/-- C9: when the model requests browser_read on a string URL whose parsed
path contains a cart segment or whose query string carries a payment or
checkout marker, the main loop never runs the page reader for it - the call
is overridden into an open_in_browser invocation on the same URL. -/
theorem browserRead_checkout_override (registry : List String) (args : Json) (u : String)
    (parts : UrlParts)
    (hurl : jsGet args "url" = some (Json.str u))
    (hparse : urlParse u = some parts)
    (hmark : strIncludes (toLowerStr parts.pathname) "/cart/" = true
        ∨ strIncludes (toLowerStr parts.search) "payment=shop_pay" = true
        ∨ strIncludes (toLowerStr parts.search) "checkout" = true) :
    dispatchToolCall registry "browser_read" args
        = MainLoopAction.openInBrowser (Json.obj [("url", Json.str u)])
      ∧ ∀ a, dispatchToolCall registry "browser_read" args
          ≠ MainLoopAction.execRegistered "browser_read" a := by
  have hne : u ≠ "" := by
    intro he
    subst he
    rw [show urlParse "" = none from rfl] at hparse
    exact Option.noConfusion hparse
  have hlik : isLikelyCheckoutUrl u = true := by
    unfold isLikelyCheckoutUrl
    rw [hparse]
    rcases hmark with h | h | h <;> simp [h]
  have hbne : (u != "") = true := by simpa using hne
  have hmain : dispatchToolCall registry "browser_read" args
      = MainLoopAction.openInBrowser (Json.obj [("url", Json.str u)]) := by
    simp [dispatchToolCall, hurl, hbne, hlik]
  exact ⟨hmain, fun a => by rw [hmain]; exact fun hc => MainLoopAction.noConfusion hc⟩

/-- C9 witness: a concrete cart URL with a shop-pay marker is opened, not
read, even with browser_read registered. -/
theorem browserRead_checkout_override_witness :
    jsGet (Json.obj [("url", Json.str cartUrlExample)]) "url" = some (Json.str cartUrlExample)
      ∧ dispatchToolCall ["browser_read"] "browser_read"
          (Json.obj [("url", Json.str cartUrlExample)])
        = MainLoopAction.openInBrowser (Json.obj [("url", Json.str cartUrlExample)]) :=
  ⟨rfl,
   (browserRead_checkout_override ["browser_read"]
     (Json.obj [("url", Json.str cartUrlExample)]) cartUrlExample
     ⟨"/cart/31:1", "?payment=shop_pay"⟩ rfl rfl (Or.inl rfl)).1⟩

end Shop
